import Mathlib

/-!
# The signed request helper of the Pritunl provider

A shallow embedding of `request/request.go` (package `request`): the type
`Request` and its one method `Do`, which signs a request with HMAC-SHA256,
sends it and decodes the JSON answer.

Everything `Do` calls outside the package is an input of the embedding:

* the pure library functions (`crypto/hmac` with `crypto/sha256`,
  `encoding/base64`, `encoding/json`, the validation done by
  `http.NewRequest`, `url.Values`) are the fields of `Lib`;
* what the outside world decides in one call (the clock, the fresh object id,
  the answer of the HTTP client) are the fields of `World`.

Go strings are Lean strings, `[]byte(s)` is the UTF-8 encoding of `s`.
Side effects are recorded, in program order, in the `trace` of the result.
-/

set_option autoImplicit false

namespace request

/-! ## Data model -/

/-- A Go byte slice. -/
abbrev Bytes := List UInt8

/-- The conversion `[]byte(s)` of a string. -/
def bytesOf (s : String) : Bytes := s.toUTF8.data.toList

/-- Modelled from the spec: the package `schemas` is not under src. These are the
credentials of the spec's section 3 (host, token, secret), under the field names
by which `Do` reads them from `schemas.Provider`. -/
structure Provider where
  PritunlHost : String
  PritunlToken : String
  PritunlSecret : String
  deriving DecidableEq, Repr

/-- The struct `Request` (request.go lines 28 to 33). `Query` and `Json` are nil
exactly when they are `none`; a Go map is given by its list of entries (keys
distinct, order unspecified), the payload is a value of the type `J`. -/
structure Request (J : Type) where
  Method : String
  Path : String
  Query : Option (List (String × String))
  Json : Option J

/-- Modelled from the spec: the package `errortypes` is not under src. These are
the error kinds the spec's section 7 names; request.go builds only
`RequestError` and `ParseError` values. -/
inductive ErrorKind where
  | SerializationError
  | RequestError
  | ParseError
  deriving DecidableEq, Repr

/-- An error value built by `Do`: an `errortypes` struct around the result of
`errors.Wrap` or `errors.Wrapf`. `pointer` tells `&errortypes.X{...}` from
`errortypes.X{...}`, `msg` is the message handed to the wrapper and `inner` the
wrapped cause (`none` for a nil cause). -/
structure Error where
  kind : ErrorKind
  pointer : Bool
  msg : String
  inner : Option String
  deriving DecidableEq, Repr

/-- The type `http.Header`, restricted to single-valued entries, which is all
`Header.Set` ever stores. -/
structure Header where
  entries : List (String × String)
  deriving DecidableEq, Repr

/-- The method `Header.Set`: the entry of `key` is replaced by the one value. The
keys `Do` uses are already in canonical MIME form, so the canonicalisation of
the key is the identity on them. -/
def Header.Set (h : Header) (key value : String) : Header :=
  ⟨(key, value) :: h.entries.filter (fun kv => kv.1 != key)⟩

/-- The value stored under `key`, `none` when the header has no such entry. -/
def Header.Get (h : Header) (key : String) : Option String :=
  (h.entries.find? (fun kv => kv.1 == key)).map (fun kv => kv.2)

/-- The part of `url.URL` that `Do` touches: the parsed address and its
`RawQuery` field. -/
structure URL where
  Parsed : String
  RawQuery : String
  deriving DecidableEq, Repr

/-- The fields of `http.Request` that `Do` sets. `Body` is `none` for a request
without a body. -/
structure HttpRequest where
  Method : String
  URL : URL
  Header : Header
  Body : Option Bytes
  deriving DecidableEq, Repr

/-- The stream `resp.Body`: it delivers `data` and then ends, with end of file
when `readErr` is `none` and with the read error `readErr` otherwise. -/
structure Body where
  data : Bytes
  readErr : Option String
  deriving DecidableEq, Repr

/-- The fields of `http.Response` that `Do` reads. -/
structure Response where
  StatusCode : Int
  Body : Body
  deriving DecidableEq, Repr

/-- The function `ioutil.ReadAll` on a body: the bytes read until end of file or
the first error, and that error. -/
def ioutilReadAll (b : Body) : Bytes × Option String := (b.data, b.readErr)

/-- The pure library functions `Do` calls, for a payload type `J` and an output
target type `T`.

* `hmacSha256 key msg` is `hmac.New(sha256.New, key)`, `Write(msg)`, `Sum(nil)`;
* `base64StdEncode` is `base64.StdEncoding.EncodeToString`;
* `jsonMarshal` is `json.Marshal`;
* `jsonUnmarshal data v` is `json.Unmarshal(data, &respVal)` on a target in
  state `v`: the state of the target afterwards and the error;
* `httpNewRequest method url` is what `http.NewRequest` validates and parses:
  the method and the URL of the new request, or the error;
* `queryEncode u q` is `u.Query()`, one `Add` for each entry of `q`, `Encode()`.
-/
structure Lib (J T : Type) where
  hmacSha256 : Bytes → Bytes → Bytes
  base64StdEncode : Bytes → String
  jsonMarshal : J → Except String Bytes
  jsonUnmarshal : Bytes → T → T × Option String
  httpNewRequest : String → String → Except String (String × URL)
  queryEncode : URL → List (String × String) → String

/-- What the outside world decides during one call of `Do`: `now` is
`time.Now().Unix()`, `objectIdHex` is `bson.NewObjectId().Hex()`, and `clientDo`
is `client.Do`, which answers with a response or fails with an error (and the
response value it returns next to the error). -/
structure World where
  now : Int
  objectIdHex : String
  clientDo : HttpRequest → Except (Option Response × String) Response

/-- The side effects of `Do`, recorded in program order. -/
inductive Event where
  | marshal
  | tlsInsecureSkipVerify
  | newRequest
  | log
  | send (req : HttpRequest)
  | readAll
  | unmarshal (data : Bytes)
  | bodyClose
  deriving DecidableEq, Repr

/-- What a call of `Do` leaves behind: the two results `resp` and `err`, the
state of the caller's output target (`none` for a nil `respVal`) and the side
effects. -/
structure DoResult (T : Type) where
  resp : Option Response
  err : Option Error
  respVal : Option T
  trace : List Event

/-- The request handed to `client.Do`, when the call got that far. -/
def DoResult.sent {T : Type} (res : DoResult T) : Option HttpRequest :=
  res.trace.findSome? fun
    | .send req => some req
    | _ => none

/-- Whether the call read the response body. -/
def DoResult.readsBody {T : Type} (res : DoResult T) : Bool :=
  res.trace.any fun
    | .readAll => true
    | _ => false

/-- Whether the call ran the JSON decoder. -/
def DoResult.parsesBody {T : Type} (res : DoResult T) : Bool :=
  res.trace.any fun
    | .unmarshal _ => true
    | _ => false

/-- Whether the call built an HTTP request. -/
def DoResult.buildsRequest {T : Type} (res : DoResult T) : Bool :=
  res.trace.any fun
    | .newRequest => true
    | _ => false

/-! ## The method `Do` -/

/-- The canonical string (request.go lines 42 to 48): `strings.Join` of the five
fields with the separator `&`. -/
def authString (token authTimestamp authNonce method path : String) : String :=
  "&".intercalate [token, authTimestamp, authNonce, method, path]

/-- The signature (request.go lines 50 to 53): the standard base64 encoding of the
HMAC-SHA256 of the canonical string under the secret. -/
def authSig {J T : Type} (lib : Lib J T) (secret authString : String) : String :=
  let rawSignature := lib.hmacSha256 (bytesOf secret) (bytesOf authString)
  lib.base64StdEncode rawSignature

/-- Lines 55 to 66 of `Do`: the request body. A nil payload gives no body, any
other payload is serialised with `json.Marshal`, whose error is passed on. -/
def marshalBody {J T : Type} (lib : Lib J T) (json : Option J) : Except String (Option Bytes) :=
  match json with
  | none => .ok none
  | some j =>
    match lib.jsonMarshal j with
    | .error e => .error e
    | .ok data => .ok (some data)

/-- Lines 81 to 98 of `Do`: the query string and the headers set on the request
that `http.NewRequest` returned. -/
def setQueryAndHeaders {J T : Type} (lib : Lib J T) (r : Request J) (prvdr : Provider)
    (authTimestamp authNonce sig : String) (req : HttpRequest) : HttpRequest :=
  -- lines 81 to 89
  let req : HttpRequest :=
    match r.Query with
    | none => req
    | some q => { req with URL := { req.URL with RawQuery := lib.queryEncode req.URL q } }
  -- lines 91 to 94
  let req := { req with Header := req.Header.Set "Auth-Token" prvdr.PritunlToken }
  let req := { req with Header := req.Header.Set "Auth-Timestamp" authTimestamp }
  let req := { req with Header := req.Header.Set "Auth-Nonce" authNonce }
  let req := { req with Header := req.Header.Set "Auth-Signature" sig }
  -- lines 96 to 98
  match r.Json with
  | none => req
  | some _ => { req with Header := req.Header.Set "Content-Type" "application/json" }

/-- Lines 109 to 135 of `Do`: what is done with the response of a call that
succeeded at transport level. `t` is the trace so far; the deferred
`resp.Body.Close()` runs when `Do` returns. -/
def handleResponse {J T : Type} (lib : Lib J T) (resp : Response) (respVal : Option T)
    (t : List Event) : DoResult T :=
  -- lines 111 to 113
  if resp.StatusCode = 404 ∨ resp.StatusCode = 401 then
    { resp := some resp, err := none, respVal := respVal, trace := t ++ [.bodyClose] }
  -- lines 115 to 121
  else if resp.StatusCode < 200 ∨ resp.StatusCode > 299 then
    { resp := some resp
      err := some ⟨.RequestError, true,
        "request: Bad response status " ++ toString resp.StatusCode, none⟩
      respVal := respVal
      trace := t ++ [.bodyClose] }
  else
    -- lines 123 to 135
    match respVal with
    | none =>
      { resp := some resp, err := none, respVal := none, trace := t ++ [.bodyClose] }
    | some v =>
      let info := (ioutilReadAll resp.Body).1
      let out := lib.jsonUnmarshal info v
      let t := t ++ [.readAll, .unmarshal info, .log]
      match out.2 with
      | some e =>
        { resp := some resp
          err := some ⟨.ParseError, true, "request: Failed to parse response", some e⟩
          respVal := some out.1
          trace := t ++ [.bodyClose] }
      | none =>
        { resp := some resp, err := none, respVal := some out.1, trace := t ++ [.bodyClose] }

/-- The method `Request.Do` (request.go lines 35 to 136). -/
def Request.Do {J T : Type} (lib : Lib J T) (w : World) (r : Request J)
    (prvdr : Provider) (respVal : Option T) : DoResult T :=
  -- line 38
  let url := "https://" ++ prvdr.PritunlHost ++ r.Path
  -- lines 40 to 53
  let authTimestamp := toString w.now
  let authNonce := w.objectIdHex
  let authStr := authString prvdr.PritunlToken authTimestamp authNonce r.Method r.Path
  let sig := authSig lib prvdr.PritunlSecret authStr
  -- lines 55 to 66
  match marshalBody lib r.Json with
  | .error e =>
    { resp := none
      err := some ⟨.RequestError, false, "request: Json marshal error", some e⟩
      respVal := respVal
      trace := [.marshal] }
  | .ok body =>
    let t := (if r.Json.isSome then [Event.marshal] else []) ++
      [.tlsInsecureSkipVerify, .newRequest]
    -- lines 73 to 79
    match lib.httpNewRequest r.Method url with
    | .error e =>
      { resp := none
        err := some ⟨.RequestError, true, "request: Failed to create request", some e⟩
        respVal := respVal
        trace := t }
    | .ok (method, u) =>
      let req : HttpRequest := { Method := method, URL := u, Header := ⟨[]⟩, Body := body }
      -- lines 81 to 98
      let req := setQueryAndHeaders lib r prvdr authTimestamp authNonce sig req
      -- lines 100 to 108
      let t := t ++ [.log, .send req]
      match w.clientDo req with
      | .error (resp, e) =>
        { resp := resp
          err := some ⟨.RequestError, true, "request: Request error", some e⟩
          respVal := respVal
          trace := t }
      | .ok resp => handleResponse lib resp respVal t

/-! ## A small concrete library and world

Used to run `Do` on concrete inputs. The payload is a natural number or a value
that cannot be serialised; the output target is a natural number. -/

/-- A payload: a number, or a value `json.Marshal` rejects (such as a channel). -/
inductive Payload where
  | num (n : Nat)
  | unsupported
  deriving DecidableEq, Repr

/-- A toy library: the MAC is the key followed by the message, base64 is the
number of bytes, numbers are serialised as one byte, and the decoder accepts
exactly one-byte inputs. -/
def toyLib : Lib Payload Nat where
  hmacSha256 := fun key msg => key ++ msg
  base64StdEncode := fun b => toString b.length
  jsonMarshal := fun
    | .num n => .ok [UInt8.ofNat n]
    | .unsupported => .error "json: unsupported type: chan int"
  jsonUnmarshal := fun data v =>
    match data with
    | [b] => (b.toNat, none)
    | [] => (v, some "unexpected end of JSON input")
    | _ => (v, some "invalid character after top-level value")
  httpNewRequest := fun method url =>
    if method = "" then .ok ("GET", ⟨url, ""⟩) else .ok (method, ⟨url, ""⟩)
  queryEncode := fun _ q => "&".intercalate (q.map fun kv => kv.1 ++ "=" ++ kv.2)

/-- A world whose server answers every request with the given status and body. -/
def toyWorld (status : Int) (body : Body) : World where
  now := 1700000000
  objectIdHex := "5f1a2b3c4d5e6f7a8b9c0d1e"
  clientDo := fun _ => .ok ⟨status, body⟩

/-- The credentials used in the examples. -/
def toyProvider : Provider := ⟨"vpn.example.com", "tok", "sec"⟩

/-- A request without query and without payload. -/
def toyGet : Request Payload := ⟨"GET", "/key", none, none⟩

/-- The request `Do` hands to the client for `toyGet`. -/
def toyGetSent : HttpRequest :=
  { Method := "GET"
    URL := ⟨"https://vpn.example.com/key", ""⟩
    Header := ⟨[("Auth-Signature", "51"), ("Auth-Nonce", "5f1a2b3c4d5e6f7a8b9c0d1e"),
      ("Auth-Timestamp", "1700000000"), ("Auth-Token", "tok")]⟩
    Body := none }

/-- A request with a query and a payload. -/
def toyFull : Request Payload := ⟨"GET", "/key", some [("org", "5f")], some (.num 3)⟩

/-- The request `Do` hands to the client for `toyFull`. -/
def toyFullSent : HttpRequest :=
  { Method := "GET"
    URL := ⟨"https://vpn.example.com/key", "org=5f"⟩
    Header := ⟨[("Content-Type", "application/json"), ("Auth-Signature", "51"),
      ("Auth-Nonce", "5f1a2b3c4d5e6f7a8b9c0d1e"), ("Auth-Timestamp", "1700000000"),
      ("Auth-Token", "tok")]⟩
    Body := some [3] }

/-- A request whose payload cannot be serialised. -/
def toyBad : Request Payload := ⟨"POST", "/key", none, some .unsupported⟩

/-- Whether the bytes are a JSON string literal without escapes: a double quote,
bytes from 0x20 upwards other than the double quote and the backslash, a double
quote. Such a text is valid JSON, a JSON text being any one value. -/
def jsonStringLiteral (data : Bytes) : Bool :=
  match data with
  | [] => false
  | q :: rest =>
    match rest.reverse with
    | [] => false
    | q2 :: inner =>
      q.toNat == 34 && q2.toNat == 34 &&
        inner.all fun b => decide (32 ≤ b.toNat) && b.toNat != 34 && b.toNat != 92

/-- The value of a JSON number literal that is a plain decimal: digits only, no
leading zero except for the literal `0`. -/
def jsonUintLiteral (data : Bytes) : Option Nat :=
  match data with
  | [] => none
  | d :: rest =>
    if (d :: rest).all (fun b => decide (48 ≤ b.toNat) && decide (b.toNat ≤ 57)) &&
        (rest.isEmpty || d.toNat != 48) then
      some ((d :: rest).foldl (fun acc b => acc * 10 + (b.toNat - 48)) 0)
    else none

/-- A stand-in for `json.Unmarshal` on a target of the Go type `uint`. It agrees
with `encoding/json` on the empty input (a syntax error), on plain decimal
literals (stored when they fit 64 bits, a type error otherwise) and on string
literals without escapes (valid JSON of the wrong shape: a type error, the
target left as it was); every other input is reported as malformed. -/
def unmarshalUint (data : Bytes) (v : Nat) : Nat × Option String :=
  match jsonUintLiteral data with
  | some n =>
    if n < 2 ^ 64 then (n, none)
    else (v, some ("json: cannot unmarshal number " ++ toString n ++
      " into Go value of type uint"))
  | none =>
    if jsonStringLiteral data then
      (v, some "json: cannot unmarshal string into Go value of type uint")
    else if data = [] then (v, some "unexpected end of JSON input")
    else (v, some "invalid character in JSON input")

/-- The toy library with `unmarshalUint` as its decoder. -/
def uintLib : Lib Payload Nat := { toyLib with jsonUnmarshal := unmarshalUint }

/-- The bytes of the JSON text `"x"`, a string literal. -/
def jsonStringX : Bytes := [34, 120, 34]

/-- The bytes of the JSON text `7`, a number literal. -/
def jsonNumber7 : Bytes := [55]

/-! ## Auxiliary facts about `Do` -/

/-- The canonical string is the five fields with one `&` between neighbours. -/
theorem authString_eq (token ts nonce method path : String) :
    authString token ts nonce method path
      = token ++ "&" ++ ts ++ "&" ++ nonce ++ "&" ++ method ++ "&" ++ path := by
  simp [authString, String.intercalate, String.intercalate.go]

/-- Handling the response adds no `send` event to the trace. -/
theorem handleResponse_sent {J T : Type} (lib : Lib J T) (resp : Response) (respVal : Option T)
    (t : List Event) :
    (handleResponse lib resp respVal t).sent = (DoResult.mk (some resp) none respVal t).sent := by
  unfold handleResponse
  by_cases h1 : resp.StatusCode = 404 ∨ resp.StatusCode = 401
  · simp [h1, DoResult.sent, List.findSome?_append]
  · by_cases h2 : resp.StatusCode < 200 ∨ resp.StatusCode > 299
    · simp [h1, h2, DoResult.sent, List.findSome?_append]
    · cases respVal with
      | none => simp [h1, h2, DoResult.sent, List.findSome?_append]
      | some v =>
        cases h3 : (lib.jsonUnmarshal (ioutilReadAll resp.Body).1 v).2 <;>
          simp [h1, h2, h3, DoResult.sent, List.findSome?_append]

/-- A call that sent a request got past the serialisation and past
`http.NewRequest`; the request is the one lines 73 to 98 build; and when the
transport answers it, the result is the one lines 109 to 135 compute. -/
theorem Do_sent_inv {J T : Type} (lib : Lib J T) (w : World) (r : Request J)
    (prvdr : Provider) (respVal : Option T) (req : HttpRequest)
    (hs : (r.Do lib w prvdr respVal).sent = some req) :
    ∃ body method u,
      marshalBody lib r.Json = .ok body ∧
      lib.httpNewRequest r.Method ("https://" ++ prvdr.PritunlHost ++ r.Path) = .ok (method, u) ∧
      req = setQueryAndHeaders lib r prvdr (toString w.now) w.objectIdHex
        (authSig lib prvdr.PritunlSecret
          (authString prvdr.PritunlToken (toString w.now) w.objectIdHex r.Method r.Path))
        { Method := method, URL := u, Header := ⟨[]⟩, Body := body } ∧
      ∀ resp, w.clientDo req = .ok resp →
        r.Do lib w prvdr respVal = handleResponse lib resp respVal
          ((if r.Json.isSome then [Event.marshal] else []) ++
            [.tlsInsecureSkipVerify, .newRequest] ++ [.log, .send req]) := by
  unfold Request.Do at hs ⊢
  cases hM : marshalBody lib r.Json with
  | error e => simp [hM, DoResult.sent] at hs
  | ok body =>
    cases hN : lib.httpNewRequest r.Method ("https://" ++ prvdr.PritunlHost ++ r.Path) with
    | error e =>
      simp only [hM, hN] at hs
      cases hJ : r.Json <;> simp [hJ, DoResult.sent] at hs
    | ok mu =>
      obtain ⟨method, u⟩ := mu
      simp only [hM, hN] at hs ⊢
      refine ⟨body, method, u, rfl, rfl, ?_⟩
      have hreq : req = setQueryAndHeaders lib r prvdr (toString w.now) w.objectIdHex
        (authSig lib prvdr.PritunlSecret
          (authString prvdr.PritunlToken (toString w.now) w.objectIdHex r.Method r.Path))
        { Method := method, URL := u, Header := ⟨[]⟩, Body := body } := by
        split at hs
        · cases hJ : r.Json <;>
            simp [hJ, DoResult.sent, List.findSome?_append, List.findSome?] at hs <;>
            exact hs.symm
        · rw [handleResponse_sent] at hs
          cases hJ : r.Json <;>
            simp [hJ, DoResult.sent, List.findSome?_append, List.findSome?] at hs <;>
            exact hs.symm
      subst hreq
      refine ⟨rfl, ?_⟩
      intro resp hok
      simp [hok]

/-- A call whose payload is serialised and whose request `http.NewRequest`
accepts does hand a request to the client. -/
theorem Do_sends {J T : Type} (lib : Lib J T) (w : World) (r : Request J)
    (prvdr : Provider) (respVal : Option T) (body : Option Bytes) (method : String) (u : URL)
    (hM : marshalBody lib r.Json = .ok body)
    (hN : lib.httpNewRequest r.Method ("https://" ++ prvdr.PritunlHost ++ r.Path)
      = .ok (method, u)) :
    (r.Do lib w prvdr respVal).sent
      = some (setQueryAndHeaders lib r prvdr (toString w.now) w.objectIdHex
        (authSig lib prvdr.PritunlSecret
          (authString prvdr.PritunlToken (toString w.now) w.objectIdHex r.Method r.Path))
        { Method := method, URL := u, Header := ⟨[]⟩, Body := body }) := by
  unfold Request.Do
  simp only [hM, hN]
  split
  · cases hJ : r.Json <;> simp [DoResult.sent, List.findSome?_append, List.findSome?]
  · rw [handleResponse_sent]
    cases hJ : r.Json <;> simp [DoResult.sent, List.findSome?_append, List.findSome?]

/-- The body produced by lines 55 to 66 is present exactly for a non-nil payload. -/
theorem marshalBody_isSome {J T : Type} (lib : Lib J T) (json : Option J) (body : Option Bytes)
    (h : marshalBody lib json = .ok body) : body.isSome = json.isSome := by
  unfold marshalBody at h
  cases json with
  | none => cases h; rfl
  | some j =>
    cases hm : lib.jsonMarshal j with
    | error e => simp [hm] at h
    | ok data =>
      simp only [hm] at h
      cases h; rfl

/-- The headers and the body of the request built by lines 73 to 98. -/
theorem setQueryAndHeaders_spec {J T : Type} (lib : Lib J T) (r : Request J) (prvdr : Provider)
    (ts nonce sig method : String) (u : URL) (body : Option Bytes) :
    let req := setQueryAndHeaders lib r prvdr ts nonce sig
      { Method := method, URL := u, Header := ⟨[]⟩, Body := body }
    req.Header.Get "Auth-Token" = some prvdr.PritunlToken ∧
    req.Header.Get "Auth-Timestamp" = some ts ∧
    req.Header.Get "Auth-Nonce" = some nonce ∧
    req.Header.Get "Auth-Signature" = some sig ∧
    req.Header.Get "Content-Type"
      = (if r.Json.isSome then some "application/json" else none) ∧
    req.Body = body := by
  unfold setQueryAndHeaders
  cases hJ : r.Json <;> cases hQ : r.Query <;> simp [Header.Get, Header.Set]

/-- The results of lines 109 to 135, read off the status code, the target and the
outcome of the decoder, for the trace `Do` has built when the response arrives. -/
theorem handleResponse_spec {J T : Type} (lib : Lib J T) (resp : Response) (respVal : Option T)
    (b : Bool) (req : HttpRequest) :
    let res := handleResponse lib resp respVal
      ((if b then [Event.marshal] else []) ++
        [.tlsInsecureSkipVerify, .newRequest] ++ [.log, .send req])
    res.resp = some resp ∧
    res.err =
      (if resp.StatusCode = 404 ∨ resp.StatusCode = 401 then none
       else if resp.StatusCode < 200 ∨ resp.StatusCode > 299 then
         some ⟨.RequestError, true,
           "request: Bad response status " ++ toString resp.StatusCode, none⟩
       else match respVal with
         | none => none
         | some v => (lib.jsonUnmarshal resp.Body.data v).2.map fun e =>
             ⟨.ParseError, true, "request: Failed to parse response", some e⟩) ∧
    res.respVal =
      (if (resp.StatusCode = 404 ∨ resp.StatusCode = 401) ∨
          (resp.StatusCode < 200 ∨ resp.StatusCode > 299) then respVal
       else respVal.map fun v => (lib.jsonUnmarshal resp.Body.data v).1) ∧
    res.readsBody =
      (if (resp.StatusCode = 404 ∨ resp.StatusCode = 401) ∨
          (resp.StatusCode < 200 ∨ resp.StatusCode > 299) then false
       else respVal.isSome) ∧
    res.parsesBody = res.readsBody ∧
    (res.readsBody = true → Event.unmarshal resp.Body.data ∈ res.trace) := by
  unfold handleResponse
  by_cases h1 : resp.StatusCode = 404 ∨ resp.StatusCode = 401
  · cases b <;> simp [h1, DoResult.readsBody, DoResult.parsesBody]
  · by_cases h2 : resp.StatusCode < 200 ∨ resp.StatusCode > 299
    · cases b <;> simp [h1, h2, DoResult.readsBody, DoResult.parsesBody]
    · cases respVal with
      | none => cases b <;> simp [h1, h2, DoResult.readsBody, DoResult.parsesBody]
      | some v =>
        cases h3 : (lib.jsonUnmarshal resp.Body.data v).2 <;> cases b <;>
          simp [h1, h2, h3, ioutilReadAll, DoResult.readsBody, DoResult.parsesBody]

/-- The results of a call whose request was sent and answered, read off the
status code, the target and the outcome of the decoder. -/
theorem Do_response {J T : Type} (lib : Lib J T) (w : World) (r : Request J)
    (prvdr : Provider) (respVal : Option T) (req : HttpRequest) (resp : Response)
    (hs : (r.Do lib w prvdr respVal).sent = some req)
    (hok : w.clientDo req = .ok resp) :
    (r.Do lib w prvdr respVal).resp = some resp ∧
    (r.Do lib w prvdr respVal).err =
      (if resp.StatusCode = 404 ∨ resp.StatusCode = 401 then none
       else if resp.StatusCode < 200 ∨ resp.StatusCode > 299 then
         some ⟨.RequestError, true,
           "request: Bad response status " ++ toString resp.StatusCode, none⟩
       else match respVal with
         | none => none
         | some v => (lib.jsonUnmarshal resp.Body.data v).2.map fun e =>
             ⟨.ParseError, true, "request: Failed to parse response", some e⟩) ∧
    (r.Do lib w prvdr respVal).respVal =
      (if (resp.StatusCode = 404 ∨ resp.StatusCode = 401) ∨
          (resp.StatusCode < 200 ∨ resp.StatusCode > 299) then respVal
       else respVal.map fun v => (lib.jsonUnmarshal resp.Body.data v).1) ∧
    (r.Do lib w prvdr respVal).readsBody =
      (if (resp.StatusCode = 404 ∨ resp.StatusCode = 401) ∨
          (resp.StatusCode < 200 ∨ resp.StatusCode > 299) then false
       else respVal.isSome) ∧
    (r.Do lib w prvdr respVal).parsesBody = (r.Do lib w prvdr respVal).readsBody ∧
    ((r.Do lib w prvdr respVal).readsBody = true →
      Event.unmarshal resp.Body.data ∈ (r.Do lib w prvdr respVal).trace) := by
  obtain ⟨body, method, u, -, -, -, hdo⟩ := Do_sent_inv lib w r prvdr respVal req hs
  rw [hdo resp hok]
  exact handleResponse_spec lib resp respVal r.Json.isSome req

/-- The characters of the canonical string. -/
theorem authString_data (a b c d e : String) :
    (authString a b c d e).data
      = a.data ++ '&' :: (b.data ++ '&' :: (c.data ++ '&' :: (d.data ++ '&' :: e.data))) := by
  rw [authString_eq]
  simp [String.data_append]

/-- A list is cut in one way only at the first occurrence of a separator. -/
theorem append_sep_inj (c : Char) (a : List Char) :
    ∀ (a' x x' : List Char), c ∉ a → c ∉ a' → a ++ c :: x = a' ++ c :: x' → a = a' ∧ x = x' := by
  induction a with
  | nil =>
    intro a' x x' _ ha' h
    cases a' with
    | nil => simpa using h
    | cons b a2 =>
      simp only [List.nil_append, List.cons_append, List.cons.injEq] at h
      exact absurd (by rw [h.1]; exact List.mem_cons_self _ _) ha'
  | cons b a1 ih =>
    intro a' x x' ha ha' h
    cases a' with
    | nil =>
      simp only [List.nil_append, List.cons_append, List.cons.injEq] at h
      exact absurd (by rw [← h.1]; exact List.mem_cons_self _ _) ha
    | cons b' a2 =>
      simp only [List.cons_append, List.cons.injEq] at h
      have ha1 : c ∉ a1 := fun hm => ha (List.mem_cons_of_mem _ hm)
      have ha2 : c ∉ a2 := fun hm => ha' (List.mem_cons_of_mem _ hm)
      obtain ⟨h1, h2⟩ := ih a2 x x' ha1 ha2 h.2
      exact ⟨by rw [h.1, h1], h2⟩

/-- A string that contains a separator differs from its part before it. -/
theorem mk_ne_of_data_eq (f : String) (s t : List Char) (h : f.data = s ++ '&' :: t) :
    String.mk s ≠ f := by
  intro heq
  have hd := congrArg String.data heq
  rw [h] at hd
  have hl := congrArg List.length hd
  simp at hl

/-- With the other four fields fixed, the canonical string determines the nonce. -/
theorem authString_nonce_inj (token ts nonce1 nonce2 method path : String)
    (h : authString token ts nonce1 method path = authString token ts nonce2 method path) :
    nonce1 = nonce2 := by
  have hd := congrArg String.data h
  rw [authString_data, authString_data] at hd
  have h1 := List.append_cancel_left hd
  simp only [List.cons.injEq, true_and] at h1
  have h2 := List.append_cancel_left h1
  simp only [List.cons.injEq, true_and] at h2
  have h3 : nonce1.data ++ ('&' :: (method.data ++ '&' :: path.data))
      = nonce2.data ++ ('&' :: (method.data ++ '&' :: path.data)) := h2
  exact String.ext (List.append_cancel_right h3)

/-! ## The claims -/

/-- C1: in every request `Do` sends, the header `Auth-Signature` is the base64
encoding of the HMAC-SHA256, under the secret, of the message
`token & timestamp & nonce & method & path` (the five strings in this order,
joined by single `&` characters), and the timestamp and the nonce of that message
are the values of the headers `Auth-Timestamp` and `Auth-Nonce`. -/
theorem Do_signature_header {J T : Type} (lib : Lib J T) (w : World) (r : Request J)
    (prvdr : Provider) (respVal : Option T) (req : HttpRequest)
    (hs : (r.Do lib w prvdr respVal).sent = some req) :
    ∃ timestamp nonce,
      req.Header.Get "Auth-Timestamp" = some timestamp ∧
      req.Header.Get "Auth-Nonce" = some nonce ∧
      req.Header.Get "Auth-Signature" = some (lib.base64StdEncode
        (lib.hmacSha256 (bytesOf prvdr.PritunlSecret)
          (bytesOf (prvdr.PritunlToken ++ "&" ++ timestamp ++ "&" ++ nonce ++ "&" ++
            r.Method ++ "&" ++ r.Path)))) ∧
      timestamp = toString w.now ∧ nonce = w.objectIdHex := by
  obtain ⟨body, method, u, -, -, hreq, -⟩ := Do_sent_inv lib w r prvdr respVal req hs
  have h := setQueryAndHeaders_spec lib r prvdr (toString w.now) w.objectIdHex
    (authSig lib prvdr.PritunlSecret
      (authString prvdr.PritunlToken (toString w.now) w.objectIdHex r.Method r.Path))
    method u body
  simp only at h
  rw [← hreq] at h
  refine ⟨toString w.now, w.objectIdHex, h.2.1, h.2.2.1, ?_, rfl, rfl⟩
  rw [h.2.2.2.1, authSig, authString_eq]

/-- C1 at a concrete call: the toy world sends `toyGetSent` for `toyGet`. -/
theorem Do_signature_header_witness :
    ∃ timestamp nonce,
      toyGetSent.Header.Get "Auth-Timestamp" = some timestamp ∧
      toyGetSent.Header.Get "Auth-Nonce" = some nonce ∧
      toyGetSent.Header.Get "Auth-Signature" = some (toyLib.base64StdEncode
        (toyLib.hmacSha256 (bytesOf toyProvider.PritunlSecret)
          (bytesOf (toyProvider.PritunlToken ++ "&" ++ timestamp ++ "&" ++ nonce ++ "&" ++
            toyGet.Method ++ "&" ++ toyGet.Path)))) ∧
      timestamp = toString (toyWorld 200 ⟨[], none⟩).now ∧
      nonce = (toyWorld 200 ⟨[], none⟩).objectIdHex :=
  Do_signature_header toyLib (toyWorld 200 ⟨[], none⟩) toyGet toyProvider (none : Option Nat)
    toyGetSent (by decide)

/-- C2: the signature depends on the token, the timestamp, the nonce, the method,
the path and the secret only. Two calls that agree on these six values put the
same value in `Auth-Signature`, whatever their query maps, payloads, hosts and
output targets are. -/
theorem Do_signature_ignores_query_and_payload {J T : Type} (lib : Lib J T) (w1 w2 : World)
    (r1 r2 : Request J) (p1 p2 : Provider) (rv1 rv2 : Option T) (req1 req2 : HttpRequest)
    (htoken : p1.PritunlToken = p2.PritunlToken)
    (hsecret : p1.PritunlSecret = p2.PritunlSecret)
    (htime : w1.now = w2.now)
    (hnonce : w1.objectIdHex = w2.objectIdHex)
    (hmethod : r1.Method = r2.Method)
    (hpath : r1.Path = r2.Path)
    (hs1 : (r1.Do lib w1 p1 rv1).sent = some req1)
    (hs2 : (r2.Do lib w2 p2 rv2).sent = some req2) :
    ∃ sig, req1.Header.Get "Auth-Signature" = some sig ∧
      req2.Header.Get "Auth-Signature" = some sig := by
  obtain ⟨b1, m1, u1, -, -, hreq1, -⟩ := Do_sent_inv lib w1 r1 p1 rv1 req1 hs1
  obtain ⟨b2, m2, u2, -, -, hreq2, -⟩ := Do_sent_inv lib w2 r2 p2 rv2 req2 hs2
  have h1 := (setQueryAndHeaders_spec lib r1 p1 (toString w1.now) w1.objectIdHex
    (authSig lib p1.PritunlSecret
      (authString p1.PritunlToken (toString w1.now) w1.objectIdHex r1.Method r1.Path))
    m1 u1 b1).2.2.2.1
  have h2 := (setQueryAndHeaders_spec lib r2 p2 (toString w2.now) w2.objectIdHex
    (authSig lib p2.PritunlSecret
      (authString p2.PritunlToken (toString w2.now) w2.objectIdHex r2.Method r2.Path))
    m2 u2 b2).2.2.2.1
  rw [← hreq1] at h1
  rw [← hreq2] at h2
  refine ⟨_, h1, ?_⟩
  rw [h2, htoken, hsecret, htime, hnonce, hmethod, hpath]

/-- C2 at a concrete pair of calls: `toyGet` has neither query nor payload, `toyFull`
has both, and the two requests sent carry the same signature. -/
theorem Do_signature_ignores_query_and_payload_witness :
    ∃ sig, toyGetSent.Header.Get "Auth-Signature" = some sig ∧
      toyFullSent.Header.Get "Auth-Signature" = some sig :=
  Do_signature_ignores_query_and_payload toyLib (toyWorld 200 ⟨[], none⟩)
    (toyWorld 404 ⟨[1], none⟩) toyGet toyFull toyProvider toyProvider (none : Option Nat)
    (some 0) toyGetSent toyFullSent rfl rfl rfl rfl rfl rfl (by decide) (by decide)

/-- C7: every request `Do` sends carries the headers `Auth-Token` (the token),
`Auth-Timestamp`, `Auth-Nonce` and `Auth-Signature`; it carries `Content-Type`,
with the value `application/json`, exactly when the payload is not nil; and it has
a body exactly when the payload is not nil. -/
theorem Do_headers {J T : Type} (lib : Lib J T) (w : World) (r : Request J)
    (prvdr : Provider) (respVal : Option T) (req : HttpRequest)
    (hs : (r.Do lib w prvdr respVal).sent = some req) :
    req.Header.Get "Auth-Token" = some prvdr.PritunlToken ∧
    req.Header.Get "Auth-Timestamp" = some (toString w.now) ∧
    req.Header.Get "Auth-Nonce" = some w.objectIdHex ∧
    req.Header.Get "Auth-Signature" = some (authSig lib prvdr.PritunlSecret
      (authString prvdr.PritunlToken (toString w.now) w.objectIdHex r.Method r.Path)) ∧
    (req.Header.Get "Content-Type" = some "application/json" ↔ r.Json ≠ none) ∧
    (req.Header.Get "Content-Type" = none ↔ r.Json = none) ∧
    (req.Body ≠ none ↔ r.Json ≠ none) := by
  obtain ⟨body, method, u, hM, -, hreq, -⟩ := Do_sent_inv lib w r prvdr respVal req hs
  have h := setQueryAndHeaders_spec lib r prvdr (toString w.now) w.objectIdHex
    (authSig lib prvdr.PritunlSecret
      (authString prvdr.PritunlToken (toString w.now) w.objectIdHex r.Method r.Path))
    method u body
  simp only at h
  rw [← hreq] at h
  obtain ⟨h1, h2, h3, h4, h5, h6⟩ := h
  have hb := marshalBody_isSome lib r.Json body hM
  refine ⟨h1, h2, h3, h4, ?_, ?_, ?_⟩
  · rw [h5]; cases r.Json <;> simp
  · rw [h5]; cases r.Json <;> simp
  · rw [h6]
    cases hJ : r.Json <;> cases hB : body <;> simp [hJ, hB] at hb ⊢

/-- C7 at a concrete call with a payload: the request sent has the five headers
and a body. -/
theorem Do_headers_witness :
    toyFullSent.Header.Get "Auth-Token" = some toyProvider.PritunlToken ∧
    toyFullSent.Header.Get "Auth-Timestamp" = some (toString (toyWorld 200 ⟨[7], none⟩).now) ∧
    toyFullSent.Header.Get "Auth-Nonce" = some (toyWorld 200 ⟨[7], none⟩).objectIdHex ∧
    toyFullSent.Header.Get "Auth-Signature" = some (authSig toyLib toyProvider.PritunlSecret
      (authString toyProvider.PritunlToken (toString (toyWorld 200 ⟨[7], none⟩).now)
        (toyWorld 200 ⟨[7], none⟩).objectIdHex toyFull.Method toyFull.Path)) ∧
    (toyFullSent.Header.Get "Content-Type" = some "application/json" ↔ toyFull.Json ≠ none) ∧
    (toyFullSent.Header.Get "Content-Type" = none ↔ toyFull.Json = none) ∧
    (toyFullSent.Body ≠ none ↔ toyFull.Json ≠ none) :=
  Do_headers toyLib (toyWorld 200 ⟨[7], none⟩) toyFull toyProvider (some 0) toyFullSent
    (by decide)

/-- C3: when the request was sent and the transport answered with a response of
status `s`, `Do` returns a `RequestError` exactly when `s` is outside 200..299 and
is neither 401 nor 404. That error is the pointer `RequestError` whose message is
`request: Bad response status ` followed by the decimal `s` (so it reads
`... status 500` for 500), with a nil cause, and in that case the output target
is left as it was and the body is neither read nor decoded. -/
theorem Do_bad_status {J T : Type} (lib : Lib J T) (w : World) (r : Request J)
    (prvdr : Provider) (respVal : Option T) (req : HttpRequest) (resp : Response)
    (hs : (r.Do lib w prvdr respVal).sent = some req)
    (hok : w.clientDo req = .ok resp) :
    ((∃ e, (r.Do lib w prvdr respVal).err = some e ∧ e.kind = ErrorKind.RequestError) ↔
      ((resp.StatusCode < 200 ∨ 299 < resp.StatusCode) ∧
        resp.StatusCode ≠ 401 ∧ resp.StatusCode ≠ 404)) ∧
    (((resp.StatusCode < 200 ∨ 299 < resp.StatusCode) ∧
        resp.StatusCode ≠ 401 ∧ resp.StatusCode ≠ 404) →
      (r.Do lib w prvdr respVal).err = some ⟨.RequestError, true,
        "request: Bad response status " ++ toString resp.StatusCode, none⟩ ∧
      (r.Do lib w prvdr respVal).respVal = respVal ∧
      (r.Do lib w prvdr respVal).readsBody = false ∧
      (r.Do lib w prvdr respVal).parsesBody = false) ∧
    (resp.StatusCode = 500 →
      (r.Do lib w prvdr respVal).err = some ⟨.RequestError, true,
        "request: Bad response status 500", none⟩) := by
  obtain ⟨-, herr, hval, hread, hparse, -⟩ := Do_response lib w r prvdr respVal req resp hs hok
  rw [hparse, hread, herr, hval]
  by_cases h1 : resp.StatusCode = 404 ∨ resp.StatusCode = 401
  · rw [if_pos h1]
    refine ⟨⟨?_, ?_⟩, ?_, ?_⟩
    · rintro ⟨e, he, -⟩
      cases he
    · intro h
      omega
    · intro h
      omega
    · intro h
      omega
  · rw [if_neg h1]
    by_cases h2 : resp.StatusCode < 200 ∨ resp.StatusCode > 299
    · rw [if_pos h2, if_pos (Or.inr h2), if_pos (Or.inr h2)]
      refine ⟨⟨?_, ?_⟩, ?_, ?_⟩
      · intro _
        omega
      · intro _
        exact ⟨_, rfl, rfl⟩
      · intro _
        exact ⟨rfl, rfl, rfl, rfl⟩
      · intro h
        rw [h]
        rfl
    · rw [if_neg h2]
      refine ⟨⟨?_, ?_⟩, ?_, ?_⟩
      · rintro ⟨e, he, hk⟩
        cases respVal with
        | none => cases he
        | some v =>
          cases h3 : (lib.jsonUnmarshal resp.Body.data v).2 with
          | none => simp [h3] at he
          | some e2 =>
            simp only [h3, Option.map_some', Option.some.injEq] at he
            rw [← he] at hk
            cases hk
      · intro h
        omega
      · intro h
        omega
      · intro h
        omega

/-- C3 at status 500: the toy world answers `toyGet` with 500 and `Do` returns the
`RequestError` whose message ends in 500. -/
theorem Do_bad_status_witness :
    (toyGet.Do toyLib (toyWorld 500 ⟨[7], none⟩) toyProvider (some 0)).err
      = some ⟨.RequestError, true, "request: Bad response status 500", none⟩ :=
  (Do_bad_status toyLib (toyWorld 500 ⟨[7], none⟩) toyGet toyProvider (some 0) toyGetSent
    ⟨500, ⟨[7], none⟩⟩ (by decide) rfl).2.2 rfl

/-- C4: when the request was sent and answered with status 401 or 404, `Do`
returns that response and a nil error, neither reads nor decodes the body, and
leaves the output target as it was, supplied or not. -/
theorem Do_status_401_404 {J T : Type} (lib : Lib J T) (w : World) (r : Request J)
    (prvdr : Provider) (respVal : Option T) (req : HttpRequest) (resp : Response)
    (hs : (r.Do lib w prvdr respVal).sent = some req)
    (hok : w.clientDo req = .ok resp)
    (hstatus : resp.StatusCode = 401 ∨ resp.StatusCode = 404) :
    (r.Do lib w prvdr respVal).resp = some resp ∧
    (r.Do lib w prvdr respVal).err = none ∧
    (r.Do lib w prvdr respVal).readsBody = false ∧
    (r.Do lib w prvdr respVal).parsesBody = false ∧
    (r.Do lib w prvdr respVal).respVal = respVal := by
  obtain ⟨hresp, herr, hval, hread, hparse, -⟩ :=
    Do_response lib w r prvdr respVal req resp hs hok
  have h1 : resp.StatusCode = 404 ∨ resp.StatusCode = 401 := hstatus.symm
  rw [hparse, hread, herr, hval, hresp]
  simp [h1]

/-- C4 at a concrete call: status 404 with a body that would decode, and a target. -/
theorem Do_status_401_404_witness :
    (toyGet.Do toyLib (toyWorld 404 ⟨[7], none⟩) toyProvider (some 0)).resp
      = some ⟨404, ⟨[7], none⟩⟩ ∧
    (toyGet.Do toyLib (toyWorld 404 ⟨[7], none⟩) toyProvider (some 0)).err = none ∧
    (toyGet.Do toyLib (toyWorld 404 ⟨[7], none⟩) toyProvider (some 0)).readsBody = false ∧
    (toyGet.Do toyLib (toyWorld 404 ⟨[7], none⟩) toyProvider (some 0)).parsesBody = false ∧
    (toyGet.Do toyLib (toyWorld 404 ⟨[7], none⟩) toyProvider (some 0)).respVal = some 0 :=
  Do_status_401_404 toyLib (toyWorld 404 ⟨[7], none⟩) toyGet toyProvider (some 0) toyGetSent
    ⟨404, ⟨[7], none⟩⟩ (by decide) rfl (Or.inr rfl)

/-- C5: when the request was sent and answered with a status in 200..299, then
with an output target `Do` reads the body, hands all its bytes to the JSON
decoder, stores what the decoder produced in the target, and returns a nil error
when the decoder succeeds and a `ParseError` around the decoder's error when it
fails; without an output target the body is neither read nor decoded and the
error is nil. -/
theorem Do_success_status {J T : Type} (lib : Lib J T) (w : World) (r : Request J)
    (prvdr : Provider) (respVal : Option T) (req : HttpRequest) (resp : Response)
    (hs : (r.Do lib w prvdr respVal).sent = some req)
    (hok : w.clientDo req = .ok resp)
    (hstatus : 200 ≤ resp.StatusCode ∧ resp.StatusCode ≤ 299) :
    (∀ v, respVal = some v →
      (r.Do lib w prvdr respVal).readsBody = true ∧
      (r.Do lib w prvdr respVal).parsesBody = true ∧
      Event.unmarshal resp.Body.data ∈ (r.Do lib w prvdr respVal).trace ∧
      (r.Do lib w prvdr respVal).respVal = some (lib.jsonUnmarshal resp.Body.data v).1 ∧
      ((lib.jsonUnmarshal resp.Body.data v).2 = none →
        (r.Do lib w prvdr respVal).err = none) ∧
      (∀ e, (lib.jsonUnmarshal resp.Body.data v).2 = some e →
        (r.Do lib w prvdr respVal).err
          = some ⟨.ParseError, true, "request: Failed to parse response", some e⟩)) ∧
    (respVal = none →
      (r.Do lib w prvdr respVal).err = none ∧
      (r.Do lib w prvdr respVal).readsBody = false ∧
      (r.Do lib w prvdr respVal).parsesBody = false ∧
      (r.Do lib w prvdr respVal).respVal = none) := by
  obtain ⟨-, herr, hval, hread, hparse, hmem⟩ :=
    Do_response lib w r prvdr respVal req resp hs hok
  have h1 : ¬ (resp.StatusCode = 404 ∨ resp.StatusCode = 401) := by omega
  have h2 : ¬ (resp.StatusCode < 200 ∨ resp.StatusCode > 299) := by omega
  have h12 : ¬ ((resp.StatusCode = 404 ∨ resp.StatusCode = 401) ∨
      (resp.StatusCode < 200 ∨ resp.StatusCode > 299)) := by omega
  rw [if_neg h1, if_neg h2] at herr
  rw [if_neg h12] at hval hread
  constructor
  · intro v hv
    subst hv
    have hr : (r.Do lib w prvdr (some v)).readsBody = true := by rw [hread]; rfl
    refine ⟨hr, by rw [hparse, hr], hmem hr, by rw [hval]; rfl, ?_, ?_⟩
    · intro h
      rw [herr]
      simp [h]
    · intro e h
      rw [herr]
      simp [h]
  · intro hv
    subst hv
    refine ⟨by rw [herr], by rw [hread]; rfl, by rw [hparse, hread]; rfl, by rw [hval]; rfl⟩

/-- C5 at a concrete call: a 200 response whose two bytes the toy decoder rejects
gives a `ParseError`, and the same call without a target gives no error. -/
theorem Do_success_status_witness :
    (toyGet.Do toyLib (toyWorld 200 ⟨[1, 2], none⟩) toyProvider (some 0)).err
      = some ⟨.ParseError, true, "request: Failed to parse response",
          some "invalid character after top-level value"⟩ ∧
    (toyGet.Do toyLib (toyWorld 200 ⟨[1, 2], none⟩) toyProvider none).err = none :=
  ⟨((Do_success_status toyLib (toyWorld 200 ⟨[1, 2], none⟩) toyGet toyProvider (some 0)
      toyGetSent ⟨200, ⟨[1, 2], none⟩⟩ (by decide) rfl (by decide)).1 0 rfl).2.2.2.2.2 _ rfl,
   ((Do_success_status toyLib (toyWorld 200 ⟨[1, 2], none⟩) toyGet toyProvider none
      toyGetSent ⟨200, ⟨[1, 2], none⟩⟩ (by decide) rfl (by decide)).2 rfl).1⟩

/-- C6, as stated, fails: for a payload `json.Marshal` rejects, the error `Do`
returns is a `RequestError`, not a `SerializationError`. -/
theorem Do_marshal_failure_kind :
    toyLib.jsonMarshal Payload.unsupported = .error "json: unsupported type: chan int" ∧
    (toyBad.Do toyLib (toyWorld 200 ⟨[], none⟩) toyProvider (none : Option Nat)).err
      = some ⟨.RequestError, false, "request: Json marshal error",
          some "json: unsupported type: chan int"⟩ ∧
    ¬ ∃ e, (toyBad.Do toyLib (toyWorld 200 ⟨[], none⟩) toyProvider (none : Option Nat)).err
        = some e ∧ e.kind = ErrorKind.SerializationError := by
  refine ⟨rfl, by decide, ?_⟩
  rintro ⟨e, he, hk⟩
  have h : (toyBad.Do toyLib (toyWorld 200 ⟨[], none⟩) toyProvider (none : Option Nat)).err
      = some ⟨.RequestError, false, "request: Json marshal error",
          some "json: unsupported type: chan int"⟩ := by decide
  rw [h] at he
  cases he
  cases hk

/-- C6, amended: for a payload `json.Marshal` rejects with the error `e`, `Do`
returns no response and the `RequestError` value with the message
`request: Json marshal error` around `e`; it does so before any HTTP request
is built or sent, and it leaves the output target as it was. -/
theorem Do_marshal_failure {J T : Type} (lib : Lib J T) (w : World) (r : Request J)
    (prvdr : Provider) (respVal : Option T) (j : J) (e : String)
    (hj : r.Json = some j)
    (hm : lib.jsonMarshal j = .error e) :
    (r.Do lib w prvdr respVal).err
      = some ⟨.RequestError, false, "request: Json marshal error", some e⟩ ∧
    (r.Do lib w prvdr respVal).resp = none ∧
    (r.Do lib w prvdr respVal).buildsRequest = false ∧
    (r.Do lib w prvdr respVal).sent = none ∧
    (r.Do lib w prvdr respVal).trace = [.marshal] ∧
    (r.Do lib w prvdr respVal).respVal = respVal := by
  have hM : marshalBody lib r.Json = .error e := by
    simp [marshalBody, hj, hm]
  unfold Request.Do
  simp only [hM]
  simp [DoResult.buildsRequest, DoResult.sent]

/-- C6, amended, at a concrete call. -/
theorem Do_marshal_failure_witness :
    (toyBad.Do toyLib (toyWorld 200 ⟨[], none⟩) toyProvider (some 0)).err
      = some ⟨.RequestError, false, "request: Json marshal error",
          some "json: unsupported type: chan int"⟩ ∧
    (toyBad.Do toyLib (toyWorld 200 ⟨[], none⟩) toyProvider (some 0)).resp = none ∧
    (toyBad.Do toyLib (toyWorld 200 ⟨[], none⟩) toyProvider (some 0)).buildsRequest = false ∧
    (toyBad.Do toyLib (toyWorld 200 ⟨[], none⟩) toyProvider (some 0)).sent = none ∧
    (toyBad.Do toyLib (toyWorld 200 ⟨[], none⟩) toyProvider (some 0)).trace = [.marshal] ∧
    (toyBad.Do toyLib (toyWorld 200 ⟨[], none⟩) toyProvider (some 0)).respVal = some 0 :=
  Do_marshal_failure toyLib (toyWorld 200 ⟨[], none⟩) toyBad toyProvider (some 0)
    Payload.unsupported "json: unsupported type: chan int" rfl rfl

/-- C9, as stated, fails: a read that failed after delivering the bytes of the
JSON text `"x"`, which is valid JSON, into a target of type `uint` does not
give a nil error. The decoder rejects a string for a number, and `Do` returns
the `ParseError` around that rejection, the target left as it was. -/
theorem Do_read_error_valid_json_rejected :
    jsonStringLiteral jsonStringX = true ∧
    (Body.mk jsonStringX (some "connection reset")).readErr ≠ none ∧
    (toyGet.Do uintLib (toyWorld 200 ⟨jsonStringX, some "connection reset"⟩) toyProvider
        (some 0)).err
      = some ⟨.ParseError, true, "request: Failed to parse response",
          some "json: cannot unmarshal string into Go value of type uint"⟩ ∧
    (toyGet.Do uintLib (toyWorld 200 ⟨jsonStringX, some "connection reset"⟩) toyProvider
        (some 0)).err ≠ none ∧
    (toyGet.Do uintLib (toyWorld 200 ⟨jsonStringX, some "connection reset"⟩) toyProvider
        (some 0)).respVal = some 0 := by
  refine ⟨by decide, by decide, by decide, by decide, by decide⟩

/-- C9, amended: in the step that reads the body before decoding it (status in
200..299, output target supplied) the read error plays no part. Two calls whose
responses delivered the same bytes return the same error and leave the same
target, whatever the two reads reported; the only error the step returns is a
`ParseError` around the decoder's error, never a read error of its own; the error
is nil exactly when the decoder accepts the bytes for the target, and it is that
`ParseError` when the decoder rejects them, as it does for valid JSON of the
wrong shape and, the decoder rejecting the empty input, for an empty read. -/
theorem Do_read_error_ignored {J T : Type} (lib : Lib J T) (w1 w2 : World)
    (r1 r2 : Request J) (p1 p2 : Provider) (v : T) (req1 req2 : HttpRequest)
    (resp1 resp2 : Response)
    (hs1 : (r1.Do lib w1 p1 (some v)).sent = some req1)
    (hok1 : w1.clientDo req1 = .ok resp1)
    (hs2 : (r2.Do lib w2 p2 (some v)).sent = some req2)
    (hok2 : w2.clientDo req2 = .ok resp2)
    (hstatus1 : 200 ≤ resp1.StatusCode ∧ resp1.StatusCode ≤ 299)
    (hstatus2 : 200 ≤ resp2.StatusCode ∧ resp2.StatusCode ≤ 299)
    (hdata : resp1.Body.data = resp2.Body.data) :
    (r1.Do lib w1 p1 (some v)).err = (r2.Do lib w2 p2 (some v)).err ∧
    (r1.Do lib w1 p1 (some v)).respVal = (r2.Do lib w2 p2 (some v)).respVal ∧
    (∀ e, (r1.Do lib w1 p1 (some v)).err = some e →
      e.kind = ErrorKind.ParseError ∧ e.inner = (lib.jsonUnmarshal resp1.Body.data v).2 ∧
      e.inner ≠ none) ∧
    (resp1.Body.data = [] → (lib.jsonUnmarshal [] v).2 ≠ none →
      ∃ e, (r1.Do lib w1 p1 (some v)).err = some e ∧ e.kind = ErrorKind.ParseError) ∧
    ((lib.jsonUnmarshal resp1.Body.data v).2 = none →
      (r1.Do lib w1 p1 (some v)).err = none) ∧
    ((r1.Do lib w1 p1 (some v)).err = none →
      (lib.jsonUnmarshal resp1.Body.data v).2 = none) ∧
    (∀ e2, (lib.jsonUnmarshal resp1.Body.data v).2 = some e2 →
      (r1.Do lib w1 p1 (some v)).err
        = some ⟨.ParseError, true, "request: Failed to parse response", some e2⟩) := by
  obtain ⟨-, herr1, hval1, -, -, -⟩ := Do_response lib w1 r1 p1 (some v) req1 resp1 hs1 hok1
  obtain ⟨-, herr2, hval2, -, -, -⟩ := Do_response lib w2 r2 p2 (some v) req2 resp2 hs2 hok2
  have ha1 : ¬ (resp1.StatusCode = 404 ∨ resp1.StatusCode = 401) := by omega
  have hb1 : ¬ (resp1.StatusCode < 200 ∨ resp1.StatusCode > 299) := by omega
  have hc1 : ¬ ((resp1.StatusCode = 404 ∨ resp1.StatusCode = 401) ∨
      (resp1.StatusCode < 200 ∨ resp1.StatusCode > 299)) := by omega
  have ha2 : ¬ (resp2.StatusCode = 404 ∨ resp2.StatusCode = 401) := by omega
  have hb2 : ¬ (resp2.StatusCode < 200 ∨ resp2.StatusCode > 299) := by omega
  have hc2 : ¬ ((resp2.StatusCode = 404 ∨ resp2.StatusCode = 401) ∨
      (resp2.StatusCode < 200 ∨ resp2.StatusCode > 299)) := by omega
  rw [if_neg ha1, if_neg hb1] at herr1
  rw [if_neg ha2, if_neg hb2] at herr2
  rw [if_neg hc1] at hval1
  rw [if_neg hc2] at hval2
  simp only at herr1 herr2
  refine ⟨by rw [herr1, herr2, hdata], by rw [hval1, hval2, hdata], ?_, ?_, ?_, ?_, ?_⟩
  · intro e he
    rw [herr1] at he
    cases h3 : (lib.jsonUnmarshal resp1.Body.data v).2 with
    | none => simp [h3] at he
    | some e2 =>
      simp only [h3, Option.map_some', Option.some.injEq] at he
      subst he
      simp
  · intro hnil hrej
    rw [herr1, hnil]
    cases h3 : (lib.jsonUnmarshal [] v).2 with
    | none => exact absurd h3 hrej
    | some e2 => exact ⟨_, rfl, rfl⟩
  · intro hacc
    rw [herr1, hacc]
    rfl
  · intro hnone
    rw [herr1] at hnone
    cases h3 : (lib.jsonUnmarshal resp1.Body.data v).2 with
    | none => rfl
    | some e2 => simp [h3] at hnone
  · intro e2 hrej
    rw [herr1, hrej]
    rfl

/-- C9, amended, at concrete calls with the decoder for a `uint` target: a read
that failed after the bytes of `7` gives the result of a read that succeeded
with these bytes, a nil error and the target 7; a read that failed before any
byte gives a `ParseError`. -/
theorem Do_read_error_ignored_witness :
    ((toyGet.Do uintLib (toyWorld 200 ⟨jsonNumber7, some "connection reset"⟩) toyProvider
        (some 0)).err
        = (toyFull.Do uintLib (toyWorld 201 ⟨jsonNumber7, none⟩) toyProvider (some 0)).err ∧
      (toyGet.Do uintLib (toyWorld 200 ⟨jsonNumber7, some "connection reset"⟩) toyProvider
        (some 0)).respVal
        = (toyFull.Do uintLib (toyWorld 201 ⟨jsonNumber7, none⟩) toyProvider
          (some 0)).respVal) ∧
    (toyGet.Do uintLib (toyWorld 200 ⟨jsonNumber7, some "connection reset"⟩) toyProvider
      (some 0)).err = none ∧
    (∃ e, (toyGet.Do uintLib (toyWorld 200 ⟨[], some "connection reset"⟩) toyProvider
        (some 0)).err = some e ∧ e.kind = ErrorKind.ParseError) :=
  ⟨⟨(Do_read_error_ignored uintLib (toyWorld 200 ⟨jsonNumber7, some "connection reset"⟩)
        (toyWorld 201 ⟨jsonNumber7, none⟩) toyGet toyFull toyProvider toyProvider 0 toyGetSent
        toyFullSent ⟨200, ⟨jsonNumber7, some "connection reset"⟩⟩ ⟨201, ⟨jsonNumber7, none⟩⟩
        (by decide) rfl (by decide) rfl (by decide) (by decide) rfl).1,
      (Do_read_error_ignored uintLib (toyWorld 200 ⟨jsonNumber7, some "connection reset"⟩)
        (toyWorld 201 ⟨jsonNumber7, none⟩) toyGet toyFull toyProvider toyProvider 0 toyGetSent
        toyFullSent ⟨200, ⟨jsonNumber7, some "connection reset"⟩⟩ ⟨201, ⟨jsonNumber7, none⟩⟩
        (by decide) rfl (by decide) rfl (by decide) (by decide) rfl).2.1⟩,
    (Do_read_error_ignored uintLib (toyWorld 200 ⟨jsonNumber7, some "connection reset"⟩)
        (toyWorld 201 ⟨jsonNumber7, none⟩) toyGet toyFull toyProvider toyProvider 0 toyGetSent
        toyFullSent ⟨200, ⟨jsonNumber7, some "connection reset"⟩⟩ ⟨201, ⟨jsonNumber7, none⟩⟩
        (by decide) rfl (by decide) rfl (by decide) (by decide) rfl).2.2.2.2.1 (by decide),
    (Do_read_error_ignored uintLib (toyWorld 200 ⟨[], some "connection reset"⟩)
        (toyWorld 200 ⟨[], none⟩) toyGet toyGet toyProvider toyProvider 0 toyGetSent
        toyGetSent ⟨200, ⟨[], some "connection reset"⟩⟩ ⟨200, ⟨[], none⟩⟩
        (by decide) rfl (by decide) rfl (by decide) (by decide) rfl).2.2.2.1 rfl
        (by decide)⟩

/-- C10: the canonical string does not determine its fields. The requests with
method `GET`, path `/x&/y` and with method `GET&/x`, path `/y` (both paths begin
with `/`) have, for every token, timestamp, nonce and secret, the same canonical
string and the same signature, and `Do` sends them with the same
`Auth-Signature`. Among the field tuples whose first four fields are free of
`&` the canonical string is injective, and every tuple with a `&` in one of its
first four fields shares its canonical string with another tuple. -/
theorem authString_not_injective :
    (("GET", "/x&/y") ≠ ("GET&/x", "/y") ∧
      "/x&/y".toList.head? = some '/' ∧ "/y".toList.head? = some '/' ∧
      (∀ token ts nonce : String,
        authString token ts nonce "GET" "/x&/y" = authString token ts nonce "GET&/x" "/y") ∧
      (∀ (J T : Type) (lib : Lib J T) (token ts nonce secret : String),
        authSig lib secret (authString token ts nonce "GET" "/x&/y")
          = authSig lib secret (authString token ts nonce "GET&/x" "/y")) ∧
      (∀ (J T : Type) (lib : Lib J T) (w : World) (prvdr : Provider)
        (q1 q2 : Option (List (String × String))) (j1 j2 : Option J) (rv1 rv2 : Option T)
        (req1 req2 : HttpRequest),
        (Request.Do lib w ⟨"GET", "/x&/y", q1, j1⟩ prvdr rv1).sent = some req1 →
        (Request.Do lib w ⟨"GET&/x", "/y", q2, j2⟩ prvdr rv2).sent = some req2 →
        req1.Header.Get "Auth-Signature" = req2.Header.Get "Auth-Signature")) ∧
    (∀ a b c d e a' b' c' d' e' : String,
      '&' ∉ a.toList → '&' ∉ b.toList → '&' ∉ c.toList → '&' ∉ d.toList →
      '&' ∉ a'.toList → '&' ∉ b'.toList → '&' ∉ c'.toList → '&' ∉ d'.toList →
      authString a b c d e = authString a' b' c' d' e' →
      a = a' ∧ b = b' ∧ c = c' ∧ d = d' ∧ e = e') ∧
    (∀ a b c d e : String,
      ('&' ∈ a.toList ∨ '&' ∈ b.toList ∨ '&' ∈ c.toList ∨ '&' ∈ d.toList) →
      ∃ a' b' c' d' e' : String,
        (a', b', c', d', e') ≠ (a, b, c, d, e) ∧
        authString a' b' c' d' e' = authString a b c d e) := by
  have hex : ∀ token ts nonce : String,
      authString token ts nonce "GET" "/x&/y" = authString token ts nonce "GET&/x" "/y" := by
    intro token ts nonce
    apply String.ext
    rw [authString_data, authString_data]
    simp
  refine ⟨⟨by decide, by decide, by decide, hex, ?_, ?_⟩, ?_, ?_⟩
  · intro J T lib token ts nonce secret
    rw [hex]
  · intro J T lib w prvdr q1 q2 j1 j2 rv1 rv2 req1 req2 hs1 hs2
    obtain ⟨b1, m1, u1, -, -, hreq1, -⟩ := Do_sent_inv lib w _ prvdr rv1 req1 hs1
    obtain ⟨b2, m2, u2, -, -, hreq2, -⟩ := Do_sent_inv lib w _ prvdr rv2 req2 hs2
    have h1 := (setQueryAndHeaders_spec lib ⟨"GET", "/x&/y", q1, j1⟩ prvdr (toString w.now)
      w.objectIdHex (authSig lib prvdr.PritunlSecret
        (authString prvdr.PritunlToken (toString w.now) w.objectIdHex "GET" "/x&/y"))
      m1 u1 b1).2.2.2.1
    have h2 := (setQueryAndHeaders_spec lib ⟨"GET&/x", "/y", q2, j2⟩ prvdr (toString w.now)
      w.objectIdHex (authSig lib prvdr.PritunlSecret
        (authString prvdr.PritunlToken (toString w.now) w.objectIdHex "GET&/x" "/y"))
      m2 u2 b2).2.2.2.1
    rw [← hreq1] at h1
    rw [← hreq2] at h2
    rw [h1, h2, hex]
  · intro a b c d e a' b' c' d' e' ha hb hc hd ha' hb' hc' hd' h
    have hdata := congrArg String.data h
    rw [authString_data, authString_data] at hdata
    obtain ⟨h1, hdata⟩ := append_sep_inj '&' _ _ _ _ ha ha' hdata
    obtain ⟨h2, hdata⟩ := append_sep_inj '&' _ _ _ _ hb hb' hdata
    obtain ⟨h3, hdata⟩ := append_sep_inj '&' _ _ _ _ hc hc' hdata
    obtain ⟨h4, h5⟩ := append_sep_inj '&' _ _ _ _ hd hd' hdata
    exact ⟨String.ext h1, String.ext h2, String.ext h3, String.ext h4, String.ext h5⟩
  · intro a b c d e h
    rcases h with h | h | h | h
    · obtain ⟨s, t, hst⟩ := List.append_of_mem h
      refine ⟨⟨s⟩, ⟨t⟩, b, c, d ++ "&" ++ e, ?_, ?_⟩
      · intro heq
        exact mk_ne_of_data_eq a s t hst (congrArg (fun x => x.1) heq)
      · apply String.ext
        rw [authString_data, authString_data]
        have hst' : a.data = s ++ '&' :: t := hst
        simp [hst', String.data_append]
    · obtain ⟨s, t, hst⟩ := List.append_of_mem h
      refine ⟨a, ⟨s⟩, ⟨t⟩, c, d ++ "&" ++ e, ?_, ?_⟩
      · intro heq
        exact mk_ne_of_data_eq b s t hst (congrArg (fun x => x.2.1) heq)
      · apply String.ext
        rw [authString_data, authString_data]
        have hst' : b.data = s ++ '&' :: t := hst
        simp [hst', String.data_append]
    · obtain ⟨s, t, hst⟩ := List.append_of_mem h
      refine ⟨a, b, ⟨s⟩, ⟨t⟩, d ++ "&" ++ e, ?_, ?_⟩
      · intro heq
        exact mk_ne_of_data_eq c s t hst (congrArg (fun x => x.2.2.1) heq)
      · apply String.ext
        rw [authString_data, authString_data]
        have hst' : c.data = s ++ '&' :: t := hst
        simp [hst', String.data_append]
    · obtain ⟨s, t, hst⟩ := List.append_of_mem h
      refine ⟨a, b, c, ⟨s⟩, ⟨t⟩ ++ "&" ++ e, ?_, ?_⟩
      · intro heq
        exact mk_ne_of_data_eq d s t hst (congrArg (fun x => x.2.2.2.1) heq)
      · apply String.ext
        rw [authString_data, authString_data]
        have hst' : d.data = s ++ '&' :: t := hst
        simp [hst', String.data_append]

end request
